import Mathlib

/-!
Formal model of the VLIW dynamic-binary-translation engine in `src/new1.cpp`:
the translation-block (TB) builder with branch-delay clamping
(`translateWithConstraint`), the branch-delay tracker
(`saved_contexts` / `getCyclesFromPrecedingTB`), the deferred-store packet
reorderer (`translateEPWithDeferredStores`), and the single and nested
software-pipelined-loop phase machines (`translateSoftwarePipelinedLoop`,
`translateNestedLoop`), together with the three canned instruction streams
the driver builds (`parseGuestCode`, `parseSoftwarePipelinedLoop`,
`parseNestedSoftwarePipelinedLoop`).

Modelling conventions: C++ `int` is `Int`; `std::vector` is `List`;
the simulator's mutable members are threaded explicitly; the builder's
`while` loop becomes a structurally recursive function with an explicit
fuel argument equal to the number of packets left, which is exactly the
maximal possible number of remaining iterations (the loop index strictly
increases), so the fuel never runs out before the loop guard fails.
Fields the C++ code leaves default-initialized (e.g. `delay_slots` and
`parallel` of a rebuilt deferred store, the unset index fields of a phase
TB) are modelled as `0` / `""` / `false`.  "Dispatch" is the logged
execution of a TB; translations and dispatches are recorded in an explicit
event trace.
-/

set_option linter.unusedVariables false

namespace VLIW

/-- Instruction kinds, mirroring `enum InsnType` in `src/new1.cpp` line 13. -/
inductive InsnType where
  | BRANCH
  | STORE
  | LOAD
  | ARITHMETIC
  | NOP
  | SPLOOP
  | SPKERNEL
  | SPMASK
  | OTHER
deriving DecidableEq, Repr

/-- Mirrors `struct Instruction` (lines 16-25). -/
structure Instruction where
  type : InsnType
  mnemonic : String
  unit : String
  delay_slots : Int
  predicate : String
  operands : String
  line_num : Int
  parallel : Bool
deriving DecidableEq, Repr

/-- Mirrors `struct ExecutePacket` (lines 28-32). -/
structure ExecutePacket where
  instructions : List Instruction
  cycles : Int
  ep_num : Int
deriving DecidableEq, Repr

/-- Mirrors `struct TranslationBlock` (lines 35-42). -/
structure TranslationBlock where
  packets : List ExecutePacket
  tb_id : Int
  max_cycles : Int
  start_label : String
  start_ep_index : Int
  end_ep_index : Int
deriving DecidableEq, Repr

/-- Mirrors `struct SavedContext` (lines 45-49): one pending branch-delay
obligation in the tracker. -/
structure SavedContext where
  remaining_delay : Int
  target_address : String
  instruction_line : Int
deriving DecidableEq, Repr

/-- Mirrors `struct DeferredStore` (lines 66-70). -/
structure DeferredStore where
  operands : String
  unit : String
  line_num : Int
deriving DecidableEq, Repr

/-- Mirrors `createInstruction` (lines 82-95); the C++ defaults
`pred = ""`, `par = false` are passed explicitly at every use site. -/
def createInstruction (type : InsnType) (mnemonic : String) (unit : String)
    (delay : Int) (operands : String) (line : Int) (pred : String)
    (par : Bool) : Instruction :=
  { type := type, mnemonic := mnemonic, unit := unit, delay_slots := delay,
    predicate := pred, operands := operands, line_num := line, parallel := par }

/-- The stream built by `parseGuestCode` (lines 113-132): 13 execute packets,
each of cycle cost 1. -/
def guestFig1 : List ExecutePacket :=
  [ ⟨[createInstruction .BRANCH "B" ".S2" 5 "LOOP" 1 "" false], 1, 1⟩,
    ⟨[createInstruction .BRANCH "B" ".S2" 5 "LOOP" 2 "" false], 1, 2⟩,
    ⟨[createInstruction .BRANCH "B" ".S2" 5 "LOOP" 3 "" false], 1, 3⟩,
    ⟨[createInstruction .BRANCH "B" ".S2" 5 "LOOP" 4 "" false], 1, 4⟩,
    ⟨[createInstruction .BRANCH "B" ".S2" 5 "LOOP" 5 "" false], 1, 5⟩,
    ⟨[createInstruction .ARITHMETIC "SUB" ".D2" 0 "B1, 0x1, B1" 6 "[B1]" false,
      createInstruction .BRANCH "B" ".S1" 5 "LOOP" 7 "[B1]" true], 1, 6⟩,
    ⟨[createInstruction .BRANCH "B" ".S2" 5 "B3" 8 "" false], 1, 7⟩,
    ⟨[createInstruction .NOP "NOP" "" 0 "" 9 "" false], 1, 8⟩,
    ⟨[createInstruction .NOP "NOP" "" 0 "" 10 "" false], 1, 9⟩,
    ⟨[createInstruction .NOP "NOP" "" 0 "" 11 "" false], 1, 10⟩,
    ⟨[createInstruction .NOP "NOP" "" 0 "" 12 "" false], 1, 11⟩,
    ⟨[createInstruction .ARITHMETIC "MV" ".L1" 0 "A10, A2" 12 "" false], 1, 12⟩,
    ⟨[createInstruction .ARITHMETIC "ADD" ".L1" 0 "A4, A2, A4" 13 "" false], 1, 13⟩ ]

/-- The stream built by `parseSoftwarePipelinedLoop` (lines 134-152);
`sploop_start_index` is set to 4 there. -/
def guestSploop : List ExecutePacket :=
  [ ⟨[createInstruction .ARITHMETIC "MVK" ".S" 0 "8, A0" 1 "" false], 1, 1⟩,
    ⟨[createInstruction .ARITHMETIC "MVC" ".S" 0 "A0, ILC" 2 "" false], 1, 2⟩,
    ⟨[createInstruction .NOP "NOP" "" 0 "3" 3 "" false], 3, 3⟩,
    ⟨[createInstruction .SPLOOP "SPLOOP" "" 0 "1" 4 "" false], 1, 4⟩,
    ⟨[createInstruction .LOAD "LDW" ".D" 4 "*A1++, A2" 5 "" false], 1, 5⟩,
    ⟨[createInstruction .NOP "NOP" "" 0 "4" 6 "" false], 4, 6⟩,
    ⟨[createInstruction .ARITHMETIC "MV" ".L1X" 0 "A2, B2" 7 "" false], 1, 7⟩,
    ⟨[createInstruction .SPKERNEL "SPKERNEL" "" 0 "6, 0" 8 "" false,
      createInstruction .STORE "STW" ".D" 0 "B2, *B0++" 9 "" true], 1, 8⟩ ]

/-- Packet 1 of `parseNestedSoftwarePipelinedLoop` (line 158). -/
def nestedEP1 : ExecutePacket :=
  ⟨[createInstruction .ARITHMETIC "MVK" ".S" 0 "7, A8" 1 "" false], 1, 1⟩

/-- Packet 2 of `parseNestedSoftwarePipelinedLoop` (line 159). -/
def nestedEP2 : ExecutePacket :=
  ⟨[createInstruction .ARITHMETIC "MVC" ".S" 0 "A8, ILC" 2 "" false], 1, 2⟩

/-- Packet 3 of `parseNestedSoftwarePipelinedLoop` (line 160). -/
def nestedEP3 : ExecutePacket :=
  ⟨[createInstruction .ARITHMETIC "MVC" ".S" 0 "A8, RILC" 3 "" false], 1, 3⟩

/-- Packet 4 of `parseNestedSoftwarePipelinedLoop` (line 161). -/
def nestedEP4 : ExecutePacket :=
  ⟨[createInstruction .ARITHMETIC "MVK" ".S" 0 "1, A1" 4 "" false], 1, 4⟩

/-- Packet 5 of `parseNestedSoftwarePipelinedLoop` (line 162). -/
def nestedEP5 : ExecutePacket :=
  ⟨[createInstruction .NOP "NOP" "" 0 "3" 5 "" false], 3, 5⟩

/-- Packet 6 of `parseNestedSoftwarePipelinedLoop` (line 163): the SPLOOP
marker; `sploop_start_index` is set to 6, the index of the next packet. -/
def nestedEP6 : ExecutePacket :=
  ⟨[createInstruction .SPLOOP "SPLOOP" "" 0 "1" 6 "[A1]" false], 1, 6⟩

/-- Packet 7 of `parseNestedSoftwarePipelinedLoop` (line 165). -/
def nestedEP7 : ExecutePacket :=
  ⟨[createInstruction .LOAD "LDW" ".D1" 0 "*A4++, A0" 7 "" false], 1, 7⟩

/-- Packet 8 of `parseNestedSoftwarePipelinedLoop` (line 166). -/
def nestedEP8 : ExecutePacket :=
  ⟨[createInstruction .NOP "NOP" "" 0 "4" 8 "" false], 4, 8⟩

/-- Packet 9 of `parseNestedSoftwarePipelinedLoop` (line 167). -/
def nestedEP9 : ExecutePacket :=
  ⟨[createInstruction .ARITHMETIC "MV" ".L2X" 0 "A0, B0" 9 "" false], 1, 9⟩

/-- Packet 10 of `parseNestedSoftwarePipelinedLoop` (lines 169-173). -/
def nestedEP10 : ExecutePacket :=
  ⟨[createInstruction .SPKERNEL "SPKERNELR" "" 0 "" 10 "" false,
    createInstruction .STORE "STW" ".D2" 0 "B0, *B4++" 11 "" true], 1, 10⟩

/-- Packet 11 of `parseNestedSoftwarePipelinedLoop` (line 175). -/
def nestedEP11 : ExecutePacket :=
  ⟨[createInstruction .BRANCH "BR" ".S2" 5 "TARGET" 12 "" false], 1, 11⟩

/-- Packet 12 of `parseNestedSoftwarePipelinedLoop` (lines 177-184). -/
def nestedEP12 : ExecutePacket :=
  ⟨[createInstruction .SPMASK "SPMASK" ".D" 0 "" 13 "" false,
    createInstruction .BRANCH "B" "" 0 "BR TARGET" 14 "[A1]" true,
    createInstruction .ARITHMETIC "SUB" ".S1" 0 "A1, 1, A1" 15 "[A1]" true,
    createInstruction .LOAD "LDW" ".D1" 0 "*A6, A0" 16 "[A1]" true,
    createInstruction .ARITHMETIC "ADD" ".L1" 0 "A6, 4, A4" 17 "[A1]" true], 1, 12⟩

/-- Packet 13 of `parseNestedSoftwarePipelinedLoop` (line 186). -/
def nestedEP13 : ExecutePacket :=
  ⟨[createInstruction .NOP "NOP" "" 0 "4" 18 "" false], 4, 13⟩

/-- Packet 14 of `parseNestedSoftwarePipelinedLoop` (line 187). -/
def nestedEP14 : ExecutePacket :=
  ⟨[createInstruction .ARITHMETIC "OR" ".S2" 0 "B6, 0, B4" 19 "" false], 1, 14⟩

/-- Packet 15 of `parseNestedSoftwarePipelinedLoop` (line 188). -/
def nestedEP15 : ExecutePacket :=
  ⟨[createInstruction .NOP "NOP" "" 0 "" 20 "" false], 1, 15⟩

/-- The stream built by `parseNestedSoftwarePipelinedLoop` (lines 154-189);
`sploop_start_index` is set to 6 there. -/
def guestNested : List ExecutePacket :=
  [nestedEP1, nestedEP2, nestedEP3, nestedEP4, nestedEP5, nestedEP6,
   nestedEP7, nestedEP8, nestedEP9, nestedEP10, nestedEP11, nestedEP12,
   nestedEP13, nestedEP14, nestedEP15]

/-- The minimum delay-slot count among Branch instructions of a packet,
with sentinel 1000 when none qualifies: mirrors the
`min_current_branch_delay` scan of `translateWithConstraint`
(lines 211-216). -/
def minBranchDelay (ep : ExecutePacket) : Int :=
  ep.instructions.foldl
    (fun m insn =>
      if insn.type = InsnType.BRANCH ∧ insn.delay_slots < m then insn.delay_slots else m)
    1000

/-- The saved contexts recorded for every Branch of a packet: mirrors the
obligation-recording loop of `translateWithConstraint` (lines 220-231). -/
def branchContexts (ep : ExecutePacket) : List SavedContext :=
  ep.instructions.filterMap
    (fun insn =>
      if insn.type = InsnType.BRANCH then
        some { remaining_delay := insn.delay_slots,
               target_address := insn.operands,
               instruction_line := insn.line_num }
      else none)

/-- One iteration's cycle-budget update in `translateWithConstraint`:
subtract the packet's cost (line 233), then clamp to the packet's minimum
branch delay when that is below the 1000 sentinel and below the remaining
budget (lines 236-240). -/
def stepCycles (ep : ExecutePacket) (cycles : Int) : Int :=
  let after := cycles - ep.cycles
  let minD := minBranchDelay ep
  if minD < 1000 ∧ minD < after then minD else after

/-- The state returned by the builder's while loop: accumulated packets,
final loop index, final remaining budget, and the tracker contents. -/
structure LoopResult where
  packets : List ExecutePacket
  ep_index : Nat
  cycles : Int
  ctxs : List SavedContext
deriving DecidableEq, Repr

/-- The while loop of `translateWithConstraint` (lines 204-246), with an
explicit fuel argument.  The guard is `ep_index < guest_code.size() &&
cycles > 0`; each iteration appends the packet, records its branch
obligations, and updates the budget via `stepCycles`.  The fuel-zero case
is unreachable whenever the fuel is at least `stream.length - epIndex`,
since the index strictly increases. -/
def buildLoopF (stream : List ExecutePacket) :
    Nat → Nat → Int → List ExecutePacket → List SavedContext → LoopResult
  | 0, i, c, acc, ctxs => ⟨acc, i, c, ctxs⟩
  | fuel + 1, i, c, acc, ctxs =>
    if h : i < stream.length ∧ 0 < c then
      let ep := stream.get ⟨i, h.1⟩
      buildLoopF stream fuel (i + 1) (stepCycles ep c) (acc ++ [ep])
        (ctxs ++ branchContexts ep)
    else ⟨acc, i, c, ctxs⟩

/-- The builder's while loop started with exactly enough fuel. -/
def buildLoop (stream : List ExecutePacket) (i : Nat) (c : Int)
    (acc : List ExecutePacket) (ctxs : List SavedContext) : LoopResult :=
  buildLoopF stream (stream.length - i) i c acc ctxs

/-- Result of one builder invocation: the TB, the tracker afterwards, and
the next value of `current_tb_id`. -/
structure BuildResult where
  tb : TranslationBlock
  ctxs : List SavedContext
  next_tb_id : Int
deriving DecidableEq, Repr

/-- Mirrors `translateWithConstraint` (lines 191-252): run the while loop
from `start_ep` with budget `initial_cycles`, then set
`end_ep_index = ep_index - 1`.  The simulator members `current_tb_id` and
`saved_contexts` are threaded as `tb_id` and `ctxs`. -/
def translateWithConstraint (stream : List ExecutePacket) (tb_id : Int)
    (start_ep : Nat) (initial_cycles : Int) (ctxs : List SavedContext) :
    BuildResult :=
  let r := buildLoop stream start_ep initial_cycles [] ctxs
  { tb := { packets := r.packets, tb_id := tb_id, max_cycles := initial_cycles,
            start_label := "", start_ep_index := (start_ep : Int),
            end_ep_index := (r.ep_index : Int) - 1 },
    ctxs := r.ctxs, next_tb_id := tb_id + 1 }

/-- Mirrors `getCyclesFromPrecedingTB` (lines 623-642): return 1000 when no
context is pending; otherwise return the minimum remaining delay and, as a
side effect, erase the contexts whose remaining delay is `<= 0`.  The C++
min scan starts from `saved_contexts[0]` and folds over the whole vector;
folding over the tail with the head as initial value is the same
computation. -/
def getCyclesFromPrecedingTB (ctxs : List SavedContext) :
    Int × List SavedContext :=
  match ctxs with
  | [] => (1000, [])
  | c0 :: rest =>
    let min_delay :=
      rest.foldl (fun m ctx =>
        if ctx.remaining_delay < m then ctx.remaining_delay else m)
        c0.remaining_delay
    (min_delay,
     (c0 :: rest).filter (fun ctx => !decide (ctx.remaining_delay ≤ 0)))

/-- The record pushed into `deferred_stores` for a Store instruction
(lines 262-267). -/
def toDeferredStore (insn : Instruction) : DeferredStore :=
  { operands := insn.operands, unit := insn.unit, line_num := insn.line_num }

/-- The instruction rebuilt from a deferred store (lines 277-287): type
STORE, mnemonic hardcoded to "STW", unit/operands/line copied; the C++
`Instruction store_insn;` leaves `delay_slots`, `predicate` and `parallel`
default-initialized, modelled as `0`, `""`, `false`. -/
def storeFromDeferred (ds : DeferredStore) : Instruction :=
  { type := InsnType.STORE, mnemonic := "STW", unit := ds.unit,
    delay_slots := 0, predicate := "", operands := ds.operands,
    line_num := ds.line_num, parallel := false }

/-- The first pass of `translateEPWithDeferredStores` (lines 261-275):
split the packet's instructions, in order, into the translated non-Stores
and the deferred Stores. -/
def deferPass : List Instruction → List Instruction × List DeferredStore
  | [] => ([], [])
  | insn :: rest =>
    let r := deferPass rest
    if insn.type = InsnType.STORE then (r.1, toDeferredStore insn :: r.2)
    else (insn :: r.1, r.2)

/-- Mirrors `translateEPWithDeferredStores` (lines 254-291): non-Store
instructions first (original order), then each deferred Store rebuilt via
`storeFromDeferred`.  The C++ mutates the packet in place; here the new
packet is returned. -/
def translateEPWithDeferredStores (ep : ExecutePacket) : ExecutePacket :=
  let r := deferPass ep.instructions
  { ep with instructions := r.1 ++ r.2.map storeFromDeferred }

/-- Translation and dispatch events logged by the phase machines. -/
inductive TraceEvent where
  | translateTB (label : String) (tb_id : Int)
  | dispatchTB (tb_id : Int)
deriving DecidableEq, Repr

/-- True only on translation events. -/
def isTranslateEvent : TraceEvent → Bool
  | .translateTB _ _ => true
  | .dispatchTB _ => false

/-- Number of translation events carrying the given phase label. -/
def countTranslations (label : String) (events : List TraceEvent) : Nat :=
  (events.filter (fun e =>
    match e with
    | .translateTB l _ => decide (l = label)
    | .dispatchTB _ => false)).length

/-- Number of dispatch events for the given TB id. -/
def countDispatches (id : Int) (events : List TraceEvent) : Nat :=
  (events.filter (fun e =>
    match e with
    | .translateTB _ _ => false
    | .dispatchTB i => decide (i = id))).length

/-- Mirrors `translateNormalLoop` (lines 470-491): all packets of the
stream, labelled "LOOP_STATE_0".  `max_cycles` and the index fields are
never set by the C++ code; modelled as 0. -/
def translateNormalLoop (guest : List ExecutePacket) (tb_id : Int) :
    TranslationBlock :=
  { packets := guest, tb_id := tb_id, max_cycles := 0,
    start_label := "LOOP_STATE_0", start_ep_index := 0, end_ep_index := 0 }

/-- The skip loop of `translateKernelLoop` (lines 502-518): drop packets
whose index is below `sploop_start_index` when that index is set (`>= 0`). -/
def kernelSkipGo (sploopStart : Int) :
    List ExecutePacket → Nat → List ExecutePacket
  | [], _ => []
  | ep :: rest, i =>
    if 0 ≤ sploopStart ∧ (i : Int) < sploopStart then
      kernelSkipGo sploopStart rest (i + 1)
    else ep :: kernelSkipGo sploopStart rest (i + 1)

/-- Mirrors `translateKernelLoop` (lines 493-523), labelled "LOOP_STATE_1". -/
def translateKernelLoop (guest : List ExecutePacket) (sploopStart : Int)
    (tb_id : Int) : TranslationBlock :=
  { packets := kernelSkipGo sploopStart guest 0, tb_id := tb_id,
    max_cycles := 0, start_label := "LOOP_STATE_1",
    start_ep_index := 0, end_ep_index := 0 }

/-- Mirrors `translateNestedProlog` (lines 525-548): packets with index
below `sploop_start_index` (guarded by the stream length), labelled
"NESTED_STATE_0". -/
def translateNestedProlog (guest : List ExecutePacket) (sploopStart : Int)
    (tb_id : Int) : TranslationBlock :=
  { packets := (List.range sploopStart.toNat).filterMap (fun i => guest[i]?),
    tb_id := tb_id, max_cycles := 0, start_label := "NESTED_STATE_0",
    start_ep_index := 0, end_ep_index := 0 }

/-- True when some instruction of the packet is a Branch
(scan at lines 563-570). -/
def hasBranchEP (ep : ExecutePacket) : Bool :=
  ep.instructions.any (fun insn => decide (insn.type = InsnType.BRANCH))

/-- True when some instruction of the packet is an SPMASK marker
(scan at lines 563-570). -/
def hasSpmaskEP (ep : ExecutePacket) : Bool :=
  ep.instructions.any (fun insn => decide (insn.type = InsnType.SPMASK))

/-- The kernel-boundary scan of `translateNestedInner` (lines 558-594):
stop at the first packet containing a Branch, skip packets containing an
SPMASK, keep the rest. -/
def innerScan : List ExecutePacket → List ExecutePacket
  | [] => []
  | ep :: rest =>
    if hasBranchEP ep then []
    else if hasSpmaskEP ep then innerScan rest
    else ep :: innerScan rest

/-- Mirrors `translateNestedInner` (lines 550-598), labelled
"NESTED_STATE_1".  The C++ loop index is a `size_t` initialized from the
`int` `sploop_start_index`, so a negative start wraps around and the loop
body never runs: modelled by returning no packets for a negative start. -/
def translateNestedInner (guest : List ExecutePacket) (sploopStart : Int)
    (tb_id : Int) : TranslationBlock :=
  { packets :=
      if sploopStart < 0 then [] else innerScan (guest.drop sploopStart.toNat),
    tb_id := tb_id, max_cycles := 0, start_label := "NESTED_STATE_1",
    start_ep_index := 0, end_ep_index := 0 }

/-- Mirrors `translateNestedOverlap` (lines 600-621): packets from index 10
on, labelled "NESTED_STATE_2". -/
def translateNestedOverlap (guest : List ExecutePacket) (tb_id : Int) :
    TranslationBlock :=
  { packets := guest.drop 10, tb_id := tb_id, max_cycles := 0,
    start_label := "NESTED_STATE_2", start_ep_index := 0, end_ep_index := 0 }

/-- The linear label lookup over `translation_blocks` used by
`translateNestedLoop` (lines 391-397, 416-422, 431-437): first block whose
`start_label` matches. -/
def findLabel (blocks : List TranslationBlock) (label : String) :
    Option TranslationBlock :=
  blocks.find? (fun tb => decide (tb.start_label = label))

/-- State of the single-loop phase machine: the `state` and `ILC` members
together with the simulator's block list, id counter and event trace. -/
structure LoopState where
  st : Int
  ILC : Int
  blocks : List TranslationBlock
  tb_id : Int
  events : List TraceEvent
deriving DecidableEq, Repr

/-- Mirrors one call of `translateSoftwarePipelinedLoop` (lines 293-332):
in state 0, translate the full stream, dispatch it once, decrement ILC;
if iterations remain, translate the kernel TB and dispatch it ILC times,
then reset ILC to 0; otherwise keep the decremented ILC.  No other state
is handled. -/
def sploopStep (guest : List ExecutePacket) (sploopStart : Int)
    (s : LoopState) : LoopState :=
  if s.st = 0 then
    let tb := translateNormalLoop guest s.tb_id
    let blocks1 := s.blocks ++ [tb]
    let ev1 := s.events ++
      [TraceEvent.translateTB "LOOP_STATE_0" tb.tb_id,
       TraceEvent.dispatchTB tb.tb_id]
    let ilc1 := s.ILC - 1
    if 0 < ilc1 then
      let tb1 := translateKernelLoop guest sploopStart (s.tb_id + 1)
      let ev2 := (ev1 ++ [TraceEvent.translateTB "LOOP_STATE_1" tb1.tb_id]) ++
        List.replicate ilc1.toNat (TraceEvent.dispatchTB tb1.tb_id)
      { st := 0, ILC := 0, blocks := blocks1 ++ [tb1],
        tb_id := s.tb_id + 2, events := ev2 }
    else
      { st := 0, ILC := ilc1, blocks := blocks1,
        tb_id := s.tb_id + 1, events := ev1 }
  else s

/-- State of the nested-loop phase machine: `state`, `ILC`, `RILC`, `A1`
together with the block list, id counter and event trace. -/
structure NestedState where
  st : Int
  ILC : Int
  RILC : Int
  A1 : Int
  blocks : List TranslationBlock
  tb_id : Int
  events : List TraceEvent
deriving DecidableEq, Repr

/-- The tail of the state-2 branch of `translateNestedLoop` (lines
414-466), shared by the cache-hit and cache-miss paths: re-dispatch the
cached prolog TB if present, decrement ILC, re-dispatch the cached kernel
TB ILC times if iterations remain and it is present, then reload
ILC from RILC, decrement A1 and pick the next state. -/
def stateTwoRest (s : NestedState) (blocks : List TranslationBlock)
    (tb_id : Int) (ev : List TraceEvent) : NestedState :=
  let ev2 :=
    match findLabel blocks "NESTED_STATE_0" with
    | some tb0 => ev ++ [TraceEvent.dispatchTB tb0.tb_id]
    | none => ev
  let ilc1 := s.ILC - 1
  if 0 < ilc1 then
    let ev3 :=
      match findLabel blocks "NESTED_STATE_1" with
      | some tb1 => ev2 ++ List.replicate ilc1.toNat (TraceEvent.dispatchTB tb1.tb_id)
      | none => ev2
    { st := if 0 < s.A1 - 1 then 2 else 0, ILC := s.RILC, RILC := s.RILC,
      A1 := s.A1 - 1, blocks := blocks, tb_id := tb_id, events := ev3 }
  else
    { st := if 0 < s.A1 - 1 then 2 else 0, ILC := s.RILC, RILC := s.RILC,
      A1 := s.A1 - 1, blocks := blocks, tb_id := tb_id, events := ev2 }

/-- Mirrors one call of `translateNestedLoop` (lines 334-468).  State 0:
translate the prolog unconditionally, dispatch it, decrement ILC; if
iterations remain translate the inner-body TB and dispatch it ILC times;
then reload ILC from RILC, decrement A1 and move to state 2 (or 0).
State 2: look up a cached "NESTED_STATE_2" block; translate the overlap TB
only on a miss; dispatch it; then run the shared tail.  Other states do
nothing. -/
def nestedStep (guest : List ExecutePacket) (sploopStart : Int)
    (s : NestedState) : NestedState :=
  if s.st = 0 then
    let tb0 := translateNestedProlog guest sploopStart s.tb_id
    let blocks1 := s.blocks ++ [tb0]
    let ev1 := s.events ++
      [TraceEvent.translateTB "NESTED_STATE_0" tb0.tb_id,
       TraceEvent.dispatchTB tb0.tb_id]
    let ilc1 := s.ILC - 1
    if 0 < ilc1 then
      let tb1 := translateNestedInner guest sploopStart (s.tb_id + 1)
      let ev2 := (ev1 ++ [TraceEvent.translateTB "NESTED_STATE_1" tb1.tb_id]) ++
        List.replicate ilc1.toNat (TraceEvent.dispatchTB tb1.tb_id)
      { st := if 0 < s.A1 - 1 then 2 else 0, ILC := s.RILC, RILC := s.RILC,
        A1 := s.A1 - 1, blocks := blocks1 ++ [tb1], tb_id := s.tb_id + 2,
        events := ev2 }
    else
      { st := if 0 < s.A1 - 1 then 2 else 0, ILC := s.RILC, RILC := s.RILC,
        A1 := s.A1 - 1, blocks := blocks1, tb_id := s.tb_id + 1, events := ev1 }
  else if s.st = 2 then
    match findLabel s.blocks "NESTED_STATE_2" with
    | some tbc =>
      stateTwoRest s s.blocks s.tb_id
        (s.events ++ [TraceEvent.dispatchTB tbc.tb_id])
    | none =>
      let tb2 := translateNestedOverlap guest s.tb_id
      stateTwoRest s (s.blocks ++ [tb2]) (s.tb_id + 1)
        (s.events ++
          [TraceEvent.translateTB "NESTED_STATE_2" tb2.tb_id,
           TraceEvent.dispatchTB tb2.tb_id])
  else s

/-- The part-4 driver loop of `simulateExecution` (lines 793-801): call
`translateNestedLoop` up to the given number of outer iterations, breaking
as soon as `state == 0 && A1 == 0` after a call. -/
def runNestedDriver (guest : List ExecutePacket) (sploopStart : Int) :
    Nat → NestedState → NestedState
  | 0, s => s
  | n + 1, s =>
    let s2 := nestedStep guest sploopStart s
    if s2.st = 0 ∧ s2.A1 = 0 then s2
    else runNestedDriver guest sploopStart n s2

/-- The top-level build budget `initial_cycles` of `simulateExecution`
(line 673). -/
def initial_cycles : Int := 1000

/-- Initial nested-machine state of part 4 (lines 782-786): ILC = 7,
RILC = 7, A1 = 3, state 0.  The block list and id counter are taken fresh;
the blocks accumulated by parts 1-3 carry labels other than NESTED_*, so
they are invisible to every lookup the nested machine performs. -/
def nestedInit : NestedState :=
  { st := 0, ILC := 7, RILC := 7, A1 := 3, blocks := [], tb_id := 0,
    events := [] }

/-- Nested-machine state after the first driver call. -/
def nestedS1 : NestedState := nestedStep guestNested 6 nestedInit

/-- Nested-machine state after the second driver call. -/
def nestedS2 : NestedState := nestedStep guestNested 6 nestedS1

/-- Nested-machine state after the third driver call. -/
def nestedS3 : NestedState := nestedStep guestNested 6 nestedS2

/-- The events of the first nested driver call: prolog translated and
dispatched once, kernel translated once and dispatched six times. -/
def nestedCallOneEvents : List TraceEvent :=
  [TraceEvent.translateTB "NESTED_STATE_0" 0, TraceEvent.dispatchTB 0,
   TraceEvent.translateTB "NESTED_STATE_1" 1, TraceEvent.dispatchTB 1,
   TraceEvent.dispatchTB 1, TraceEvent.dispatchTB 1, TraceEvent.dispatchTB 1,
   TraceEvent.dispatchTB 1, TraceEvent.dispatchTB 1]

/-- Initial single-loop machine state of part 3 (lines 745-746): ILC = 8,
state 0 (block list and id counter taken fresh; the single-loop machine
performs no lookups, so earlier blocks are irrelevant to it). -/
def loopInit : LoopState :=
  { st := 0, ILC := 8, blocks := [], tb_id := 0, events := [] }

/-- Single-loop machine state after the one driver call of part 3. -/
def loopS1 : LoopState := sploopStep guestSploop 4 loopInit

/-- True when the packet consists of SPMASK markers only. -/
def isSpmaskOnlyEP (ep : ExecutePacket) : Bool :=
  !ep.instructions.isEmpty &&
    ep.instructions.all (fun insn => decide (insn.type = InsnType.SPMASK))

/-- Characterization of the nested kernel scan in the words of the spec,
for comparison with the scan `translateNestedInner` performs: all packets
up to but excluding the first Branch packet, with SPMASK-only packets
excluded from the scan. -/
def claimInnerScan (l : List ExecutePacket) : List ExecutePacket :=
  (l.takeWhile (fun ep => !hasBranchEP ep)).filter (fun ep => !isSpmaskOnlyEP ep)

/-- A Branch whose delay-slot count (1500) is at or above the 1000
sentinel. -/
def branch1500 : Instruction :=
  createInstruction .BRANCH "B" ".S2" 1500 "X" 1 "" false

/-- A one-instruction packet of cost 1 holding `branch1500`. -/
def packetBr1500 : ExecutePacket := ⟨[branch1500], 1, 1⟩

/-- A one-instruction NOP packet of cost 1. -/
def packetNop : ExecutePacket :=
  ⟨[createInstruction .NOP "NOP" "" 0 "" 1 "" false], 1, 1⟩

/-- A packet of cost 1 holding a Branch with 2 delay slots. -/
def packetBr2 : ExecutePacket :=
  ⟨[createInstruction .BRANCH "B" ".S2" 2 "LOOP" 1 "" false], 1, 1⟩

/-- A five-packet stream whose first packet branches with 2 delay slots;
all costs are 1. -/
def streamBr2 : List ExecutePacket :=
  [packetBr2, packetNop, packetNop, packetNop, packetNop]

/-- A NOP packet whose cycle cost (5) exceeds a budget of 1. -/
def packetCost5 : ExecutePacket :=
  ⟨[createInstruction .NOP "NOP" "" 0 "" 1 "" false], 5, 1⟩

/-- A Store with a non-"STW" mnemonic, a predicate and the co-issued flag
set: every field the deferred-store rebuild fails to preserve. -/
def storeSTB : Instruction :=
  createInstruction .STORE "STB" ".D1" 0 "A5, *B5" 1 "[A0]" true

/-- A packet holding only `storeSTB`. -/
def packetStoreSTB : ExecutePacket := ⟨[storeSTB], 1, 1⟩

/-- The Store of the part-2 parallel LD/ST packet (lines 708-714). -/
def storeX : Instruction :=
  createInstruction .STORE "STW" ".D2" 0 "B2, *B0++" 1 "" false

/-- The co-issued Load of the part-2 parallel LD/ST packet (lines 716-722). -/
def loadY : Instruction :=
  createInstruction .LOAD "LDW" ".D1" 0 "*A1++, A2" 2 "" true

/-- The part-2 packet `[Store(X), Load(Y, co-issued)]` (lines 703-725). -/
def specExamplePacket : ExecutePacket := ⟨[storeX, loadY], 1, 1⟩

/-- A packet holding an SPMASK marker co-issued with a Load: it contains
an SPMASK but is not SPMASK-only, and holds no Branch. -/
def packetSpmaskLoad : ExecutePacket :=
  ⟨[createInstruction .SPMASK "SPMASK" ".D" 0 "" 1 "" false,
    createInstruction .LOAD "LDW" ".D1" 0 "*A6, A0" 2 "" false], 1, 1⟩

/-- A one-packet stream holding `packetSpmaskLoad`. -/
def streamSpmaskLoad : List ExecutePacket := [packetSpmaskLoad]

/-- A one-packet stream whose Branch has 3 delay slots. -/
def streamBr3 : List ExecutePacket :=
  [⟨[createInstruction .BRANCH "B" ".S1" 3 "T1" 1 "" false], 1, 1⟩]

/-- A one-packet stream whose Branch has 7 delay slots. -/
def streamBr7 : List ExecutePacket :=
  [⟨[createInstruction .BRANCH "B" ".S1" 7 "T2" 2 "" false], 1, 1⟩]

/-- A nested-machine state whose three counters are all zero. -/
def zeroCounterState : NestedState :=
  { st := 0, ILC := 0, RILC := 0, A1 := 0, blocks := [], tb_id := 0,
    events := [] }

/-- The nested machine after two consecutive calls from a fresh state with
ILC = 1, RILC = 1, A1 = 1: the first call completes the loop (back to
state 0), the second call re-enters state 0. -/
def doubleCallState : NestedState :=
  nestedStep guestNested 6
    (nestedStep guestNested 6
      { st := 0, ILC := 1, RILC := 1, A1 := 1, blocks := [], tb_id := 0,
        events := [] })

/-- A nested-machine state sitting in state 2 with the overlap TB already
cached. -/
def overlapCachedState : NestedState :=
  { st := 2, ILC := 7, RILC := 7, A1 := 1,
    blocks := [translateNestedOverlap guestNested 2], tb_id := 3,
    events := [] }

/-- A saved context with positive remaining delay. -/
def ctxW : SavedContext := ⟨5, "T", 1⟩

/-! ## Helper lemmas -/

/-- The builder loop only ever appends to its packet accumulator. -/
theorem buildLoopF_packets_extends (stream : List ExecutePacket) :
    ∀ (fuel i : Nat) (c : Int) (acc : List ExecutePacket)
      (ctxs : List SavedContext),
    ∃ t, (buildLoopF stream fuel i c acc ctxs).packets = acc ++ t := by
  intro fuel
  induction fuel with
  | zero =>
    intro i c acc ctxs
    exact ⟨[], by simp [buildLoopF]⟩
  | succ n ih =>
    intro i c acc ctxs
    by_cases h : i < stream.length ∧ 0 < c
    · simp only [buildLoopF, dif_pos h]
      obtain ⟨t, ht⟩ := ih (i + 1) (stepCycles (stream.get ⟨i, h.1⟩) c)
        (acc ++ [stream.get ⟨i, h.1⟩]) (ctxs ++ branchContexts (stream.get ⟨i, h.1⟩))
      exact ⟨stream.get ⟨i, h.1⟩ :: t, by rw [ht]; simp⟩
    · exact ⟨[], by simp [buildLoopF, dif_neg h]⟩

/-- The builder loop's index never decreases. -/
theorem buildLoopF_index_ge (stream : List ExecutePacket) :
    ∀ (fuel i : Nat) (c : Int) (acc : List ExecutePacket)
      (ctxs : List SavedContext),
    i ≤ (buildLoopF stream fuel i c acc ctxs).ep_index := by
  intro fuel
  induction fuel with
  | zero =>
    intro i c acc ctxs
    simp [buildLoopF]
  | succ n ih =>
    intro i c acc ctxs
    by_cases h : i < stream.length ∧ 0 < c
    · simp only [buildLoopF, dif_pos h]
      exact le_trans (Nat.le_succ i)
        (ih (i + 1) (stepCycles (stream.get ⟨i, h.1⟩) c)
          (acc ++ [stream.get ⟨i, h.1⟩])
          (ctxs ++ branchContexts (stream.get ⟨i, h.1⟩)))
    · simp [buildLoopF, dif_neg h]

/-- The budget update never exceeds budget minus the packet's cost. -/
theorem stepCycles_le (ep : ExecutePacket) (c : Int) :
    stepCycles ep c ≤ c - ep.cycles := by
  unfold stepCycles
  simp only []
  split
  · next h => omega
  · exact le_refl _

/-- With positive packet costs, the builder loop appends at most
`c.toNat` further packets when started with budget `c`. -/
theorem buildLoopF_length_le (stream : List ExecutePacket)
    (hcost : ∀ ep ∈ stream, 1 ≤ ep.cycles) :
    ∀ (fuel i : Nat) (c : Int) (acc : List ExecutePacket)
      (ctxs : List SavedContext),
    (buildLoopF stream fuel i c acc ctxs).packets.length ≤
      acc.length + c.toNat := by
  intro fuel
  induction fuel with
  | zero =>
    intro i c acc ctxs
    simp [buildLoopF]
  | succ n ih =>
    intro i c acc ctxs
    by_cases h : i < stream.length ∧ 0 < c
    · simp only [buildLoopF, dif_pos h]
      have h1 : 1 ≤ (stream.get ⟨i, h.1⟩).cycles :=
        hcost _ (stream.get_mem i h.1)
      have h2 : stepCycles (stream.get ⟨i, h.1⟩) c ≤ c - (stream.get ⟨i, h.1⟩).cycles :=
        stepCycles_le _ _
      have h3 := ih (i + 1) (stepCycles (stream.get ⟨i, h.1⟩) c)
        (acc ++ [stream.get ⟨i, h.1⟩])
        (ctxs ++ branchContexts (stream.get ⟨i, h.1⟩))
      have h4 : (acc ++ [stream.get ⟨i, h.1⟩]).length = acc.length + 1 := by simp
      rw [h4] at h3
      have h5 : 0 < c := h.2
      omega
    · simp [buildLoopF, dif_neg h]

/-- The deferring pass is the in-order split of a packet's instructions
into its non-Stores and the deferred records of its Stores. -/
theorem deferPass_eq : ∀ l : List Instruction,
    deferPass l =
      (l.filter (fun insn => !decide (insn.type = InsnType.STORE)),
       (l.filter (fun insn => decide (insn.type = InsnType.STORE))).map
         toDeferredStore) := by
  intro l
  induction l with
  | nil => rfl
  | cons insn rest ih =>
    by_cases h : insn.type = InsnType.STORE
    · simp [deferPass, ih, h]
    · simp [deferPass, ih, h]

/-- The kernel-boundary scan equals take-until-Branch followed by
filtering out SPMASK-carrying packets. -/
theorem innerScan_eq : ∀ l : List ExecutePacket,
    innerScan l =
      (l.takeWhile (fun ep => !hasBranchEP ep)).filter
        (fun ep => !hasSpmaskEP ep) := by
  intro l
  induction l with
  | nil => rfl
  | cons ep rest ih =>
    by_cases hb : hasBranchEP ep
    · simp [innerScan, hb, List.takeWhile_cons]
    · by_cases hs : hasSpmaskEP ep
      · simp [innerScan, hb, hs, List.takeWhile_cons, ih]
      · simp [innerScan, hb, hs, List.takeWhile_cons, ih]

/-- The tracker's min fold is bounded by its initial value. -/
theorem foldlMinDelay_le_init : ∀ (l : List SavedContext) (a : Int),
    l.foldl (fun m ctx =>
      if ctx.remaining_delay < m then ctx.remaining_delay else m) a ≤ a := by
  intro l
  induction l with
  | nil => intro a; simp
  | cons c rest ih =>
    intro a
    simp only [List.foldl_cons]
    refine le_trans (ih _) ?_
    split
    · omega
    · exact le_refl _

/-- The tracker's min fold is bounded by every list element. -/
theorem foldlMinDelay_le_mem : ∀ (l : List SavedContext) (a : Int)
    (c : SavedContext), c ∈ l →
    l.foldl (fun m ctx =>
      if ctx.remaining_delay < m then ctx.remaining_delay else m) a ≤
      c.remaining_delay := by
  intro l
  induction l with
  | nil => intro a c hc; cases hc
  | cons x rest ih =>
    intro a c hc
    rcases List.mem_cons.mp hc with h | h
    · subst h
      simp only [List.foldl_cons]
      refine le_trans (foldlMinDelay_le_init rest _) ?_
      split
      · omega
      · omega
    · simp only [List.foldl_cons]
      exact ih _ c h

/-- The builder's min-delay fold keeps its initial value when every Branch
delay is at least that value. -/
theorem foldl_minBranch_const : ∀ (l : List Instruction) (m : Int),
    (∀ insn ∈ l, insn.type = InsnType.BRANCH → m ≤ insn.delay_slots) →
    l.foldl (fun a insn =>
      if insn.type = InsnType.BRANCH ∧ insn.delay_slots < a then
        insn.delay_slots
      else a) m = m := by
  intro l
  induction l with
  | nil => intro m h; rfl
  | cons insn rest ih =>
    intro m h
    simp only [List.foldl_cons]
    rw [if_neg]
    · exact ih m (fun i hi hbr => h i (List.mem_cons_of_mem _ hi) hbr)
    · rintro ⟨hbr, hlt⟩
      have := h insn (List.mem_cons_self insn rest) hbr
      omega

/-- A run of dispatch events contains no translation event. -/
theorem filter_translate_replicate (n : Nat) (id : Int) :
    (List.replicate n (TraceEvent.dispatchTB id)).filter isTranslateEvent
      = [] := by
  induction n with
  | zero => rfl
  | succ k ih => simp [List.replicate_succ, isTranslateEvent, ih]

/-- The shared tail of the nested machine's state-2 branch leaves the
block list untouched. -/
theorem stateTwoRest_blocks (s : NestedState) (blocks : List TranslationBlock)
    (tb_id : Int) (ev : List TraceEvent) :
    (stateTwoRest s blocks tb_id ev).blocks = blocks := by
  unfold stateTwoRest
  cases findLabel blocks "NESTED_STATE_0" <;>
    simp only [] <;> split <;> rfl

/-- The shared tail of the nested machine's state-2 branch appends only
dispatch events: translation events are unchanged. -/
theorem stateTwoRest_events_translate (s : NestedState)
    (blocks : List TranslationBlock) (tb_id : Int) (ev : List TraceEvent) :
    (stateTwoRest s blocks tb_id ev).events.filter isTranslateEvent =
      ev.filter isTranslateEvent := by
  unfold stateTwoRest
  cases h0 : findLabel blocks "NESTED_STATE_0" with
  | none =>
    simp only [h0]
    split
    · cases h1 : findLabel blocks "NESTED_STATE_1" with
      | none => rfl
      | some tb1 =>
        simp [List.filter_append, filter_translate_replicate]
    · rfl
  | some tb0 =>
    simp only [h0]
    split
    · cases h1 : findLabel blocks "NESTED_STATE_1" with
      | none => simp [List.filter_append, isTranslateEvent]
      | some tb1 =>
        simp [List.filter_append, isTranslateEvent, filter_translate_replicate]
    · simp [List.filter_append, isTranslateEvent]

/-- The shared tail of the nested machine's state-2 branch extends the
event list it is given. -/
theorem stateTwoRest_events_extends (s : NestedState)
    (blocks : List TranslationBlock) (tb_id : Int) (ev : List TraceEvent) :
    ∃ t, (stateTwoRest s blocks tb_id ev).events = ev ++ t := by
  unfold stateTwoRest
  cases h0 : findLabel blocks "NESTED_STATE_0" with
  | none =>
    simp only [h0]
    split
    · cases h1 : findLabel blocks "NESTED_STATE_1" with
      | none => exact ⟨[], by simp⟩
      | some tb1 => exact ⟨_, rfl⟩
    · exact ⟨[], by simp⟩
  | some tb0 =>
    simp only [h0]
    split
    · cases h1 : findLabel blocks "NESTED_STATE_1" with
      | none => exact ⟨_, rfl⟩
      | some tb1 =>
        exact ⟨[TraceEvent.dispatchTB tb0.tb_id] ++
          List.replicate (s.ILC - 1).toNat (TraceEvent.dispatchTB tb1.tb_id),
          by simp⟩
    · exact ⟨_, rfl⟩

/-! ## Claim theorems -/

/-- C1 (counterexample): the claim asserts that whenever the appended
packet holds a Branch whose delay-slot count is smaller than the
post-subtraction remaining budget, the budget is set to that count.  On
the one-packet stream holding a Branch with 1500 delay slots (cost 1),
built with budget 5000, the delay (1500) is smaller than the
post-subtraction budget (4999), yet the builder leaves the budget at
4999: the clamp's `min < 1000` sentinel comparison fails for delays of
1000 or more. -/
theorem branch_clamp_cex :
    branch1500 ∈ packetBr1500.instructions ∧
    branch1500.type = InsnType.BRANCH ∧
    branch1500.delay_slots < 5000 - packetBr1500.cycles ∧
    (buildLoop [packetBr1500] 0 5000 [] []).cycles = 4999 ∧
    (buildLoop [packetBr1500] 0 5000 [] []).cycles ≠ branch1500.delay_slots := by
  decide

/-- C1 (amended): in a build over a stream of positive-cost packets, when
the loop reaches index `i` (the packet at relative position `acc.length`
of the build) with positive remaining budget, and the packet's minimum
Branch delay-slot count `d` is below the 1000 sentinel and below the
post-subtraction remaining budget, then the build continues with the
remaining budget set to exactly `d`, and consequently the finished TB
holds at most `acc.length + 1 + d` packets — no packet beyond relative
position `acc.length + d` is included. -/
theorem branch_delay_clamp (stream : List ExecutePacket) (i : Nat) (c : Int)
    (acc : List ExecutePacket) (ctxs : List SavedContext)
    (hcost : ∀ ep ∈ stream, 1 ≤ ep.cycles)
    (hi : i < stream.length) (hc : 0 < c)
    (hd1 : minBranchDelay (stream.get ⟨i, hi⟩) < 1000)
    (hd2 : minBranchDelay (stream.get ⟨i, hi⟩) <
      c - (stream.get ⟨i, hi⟩).cycles) :
    buildLoop stream i c acc ctxs =
      buildLoop stream (i + 1) (minBranchDelay (stream.get ⟨i, hi⟩))
        (acc ++ [stream.get ⟨i, hi⟩])
        (ctxs ++ branchContexts (stream.get ⟨i, hi⟩)) ∧
    (buildLoop stream i c acc ctxs).packets.length ≤
      acc.length + 1 + (minBranchDelay (stream.get ⟨i, hi⟩)).toNat := by
  have hstep : stepCycles (stream.get ⟨i, hi⟩) c =
      minBranchDelay (stream.get ⟨i, hi⟩) := by
    unfold stepCycles
    simp only []
    rw [if_pos ⟨hd1, hd2⟩]
  have hfuel : stream.length - i = (stream.length - (i + 1)) + 1 := by omega
  have hunfold : buildLoop stream i c acc ctxs =
      buildLoop stream (i + 1) (minBranchDelay (stream.get ⟨i, hi⟩))
        (acc ++ [stream.get ⟨i, hi⟩])
        (ctxs ++ branchContexts (stream.get ⟨i, hi⟩)) := by
    unfold buildLoop
    rw [hfuel]
    simp only [buildLoopF, dif_pos (⟨hi, hc⟩ : i < stream.length ∧ 0 < c)]
    rw [hstep]
  refine ⟨hunfold, ?_⟩
  rw [hunfold]
  unfold buildLoop
  have := buildLoopF_length_le stream hcost (stream.length - (i + 1)) (i + 1)
    (minBranchDelay (stream.get ⟨i, hi⟩)) (acc ++ [stream.get ⟨i, hi⟩])
    (ctxs ++ branchContexts (stream.get ⟨i, hi⟩))
  have hlen : (acc ++ [stream.get ⟨i, hi⟩]).length = acc.length + 1 := by simp
  omega

/-- C1 (witness): the clamp theorem applied to the concrete five-packet
stream whose first packet branches with 2 delay slots, built with budget
10 from index 0. -/
theorem branch_delay_clamp_witness :
    ((∀ ep ∈ streamBr2, 1 ≤ ep.cycles) ∧ 0 < streamBr2.length ∧
     (0 : Int) < 10 ∧ minBranchDelay packetBr2 < 1000 ∧
     minBranchDelay packetBr2 < 10 - packetBr2.cycles) ∧
    (buildLoop streamBr2 0 10 [] [] =
      buildLoop streamBr2 1 (minBranchDelay packetBr2) [packetBr2]
        (branchContexts packetBr2) ∧
     (buildLoop streamBr2 0 10 [] []).packets.length ≤
       0 + 1 + (minBranchDelay packetBr2).toNat) := by
  refine ⟨by decide, ?_⟩
  exact branch_delay_clamp streamBr2 0 10 [] [] (by decide) (by decide)
    (by decide) (by decide) (by decide)

/-- C2 (counterexample): the claim asserts a cache check precedes every
translation, so each phase label maps to at most one TranslationBlock.
Two consecutive calls of the nested machine from a fresh state with
ILC = 1, RILC = 1, A1 = 1 both run the state-0 branch, which translates
the prolog unconditionally: afterwards two blocks carry the label
"NESTED_STATE_0" and two translation events for that label were logged,
the second despite the first block being cached. -/
theorem translate_once_cex :
    (doubleCallState.blocks.filter
      (fun tb => decide (tb.start_label = "NESTED_STATE_0"))).length = 2 ∧
    countTranslations "NESTED_STATE_0" doubleCallState.events = 2 := by
  decide

/-- C2 (amended): only the Overlap translation is preceded by a cache
check.  In state 2 with a "NESTED_STATE_2" block already cached, a step
performs no translation at all — the block list is unchanged, the logged
translation events are unchanged — and the overlap dispatch reuses the
identical cached block's id.  (Prolog and Kernel translations are guarded
only by the state variable, so re-entering state 0 re-translates, as the
counterexample shows.) -/
theorem overlap_cache_check (guest : List ExecutePacket) (sploopStart : Int)
    (s : NestedState) (h1 : s.st = 2) (tbc : TranslationBlock)
    (h2 : findLabel s.blocks "NESTED_STATE_2" = some tbc) :
    (nestedStep guest sploopStart s).blocks = s.blocks ∧
    (nestedStep guest sploopStart s).events.filter isTranslateEvent =
      s.events.filter isTranslateEvent ∧
    TraceEvent.dispatchTB tbc.tb_id ∈ (nestedStep guest sploopStart s).events := by
  have hne : ¬ (s.st = 0) := by rw [h1]; decide
  unfold nestedStep
  rw [if_neg hne, if_pos h1, h2]
  refine ⟨stateTwoRest_blocks _ _ _ _, ?_, ?_⟩
  · rw [stateTwoRest_events_translate]
    simp [List.filter_append, isTranslateEvent]
  · obtain ⟨t, ht⟩ := stateTwoRest_events_extends s s.blocks s.tb_id
      (s.events ++ [TraceEvent.dispatchTB tbc.tb_id])
    rw [ht]
    simp

/-- C2 (witness): the cached-overlap theorem applied to a concrete state
sitting in state 2 whose block list holds the overlap TB with id 2. -/
theorem overlap_cache_check_witness :
    overlapCachedState.st = 2 ∧
    findLabel overlapCachedState.blocks "NESTED_STATE_2" =
      some (translateNestedOverlap guestNested 2) ∧
    ((nestedStep guestNested 6 overlapCachedState).blocks =
      overlapCachedState.blocks ∧
     (nestedStep guestNested 6 overlapCachedState).events.filter
       isTranslateEvent = overlapCachedState.events.filter isTranslateEvent ∧
     TraceEvent.dispatchTB (translateNestedOverlap guestNested 2).tb_id ∈
       (nestedStep guestNested 6 overlapCachedState).events) :=
  ⟨rfl, by decide,
   overlap_cache_check guestNested 6 overlapCachedState rfl
     (translateNestedOverlap guestNested 2) (by decide)⟩

/-- C3 (counterexample): the claim asserts a non-empty TB for every
in-range start index and any budget.  Building on the Figure-1 stream
from in-range index 0 with budget 0, the loop guard `cycles > 0` fails
before the first packet is appended: the TB is empty and its end index
(-1) is below its start index (0). -/
theorem build_progress_cex :
    (translateWithConstraint guestFig1 0 0 0 []).tb.packets = [] ∧
    (translateWithConstraint guestFig1 0 0 0 []).tb.end_ep_index <
      (translateWithConstraint guestFig1 0 0 0 []).tb.start_ep_index := by
  decide

/-- C3 (amended): for every stream, every in-range start index and every
positive budget, the built TB starts with the packet at the start index —
so it holds at least one packet even when that packet's cost alone
exceeds the budget — and its end index is at least its start index. -/
theorem build_progress (stream : List ExecutePacket) (tb_id : Int)
    (ctxs : List SavedContext) (start : Nat) (c : Int)
    (h1 : start < stream.length) (h2 : 0 < c) :
    (translateWithConstraint stream tb_id start c ctxs).tb.packets.head? =
      some (stream.get ⟨start, h1⟩) ∧
    (start : Int) ≤
      (translateWithConstraint stream tb_id start c ctxs).tb.end_ep_index := by
  have hfuel : stream.length - start = (stream.length - (start + 1)) + 1 := by
    omega
  have key : (buildLoop stream start c [] ctxs).packets.head? =
      some (stream.get ⟨start, h1⟩) ∧
      start + 1 ≤ (buildLoop stream start c [] ctxs).ep_index := by
    unfold buildLoop
    rw [hfuel]
    simp only [buildLoopF,
      dif_pos (⟨h1, h2⟩ : start < stream.length ∧ 0 < c)]
    constructor
    · obtain ⟨t, ht⟩ := buildLoopF_packets_extends stream
        (stream.length - (start + 1)) (start + 1)
        (stepCycles (stream.get ⟨start, h1⟩) c)
        ([] ++ [stream.get ⟨start, h1⟩])
        (ctxs ++ branchContexts (stream.get ⟨start, h1⟩))
      rw [ht]
      simp
    · exact buildLoopF_index_ge stream (stream.length - (start + 1))
        (start + 1) (stepCycles (stream.get ⟨start, h1⟩) c)
        ([] ++ [stream.get ⟨start, h1⟩])
        (ctxs ++ branchContexts (stream.get ⟨start, h1⟩))
  refine ⟨key.1, ?_⟩
  have := key.2
  show (start : Int) ≤ ((buildLoop stream start c [] ctxs).ep_index : Int) - 1
  omega

/-- C3 (witness): the progress theorem applied to the one-packet stream
whose packet costs 5 cycles, built with budget 1: the packet is included
although its cost alone exceeds the budget. -/
theorem build_progress_witness :
    0 < [packetCost5].length ∧ (0 : Int) < 1 ∧
    ((translateWithConstraint [packetCost5] 0 0 1 []).tb.packets.head? =
      some packetCost5 ∧
     (0 : Int) ≤
       (translateWithConstraint [packetCost5] 0 0 1 []).tb.end_ep_index) :=
  ⟨by decide, by decide,
   build_progress [packetCost5] 0 [] 0 1 (by decide) (by decide)⟩

/-- C4 (counterexample): the claim asserts the reorder preserves the
multiset of instructions with all their fields.  On the packet holding a
single Store with mnemonic "STB", predicate "[A0]" and the co-issued flag
set, the rebuilt deferred store carries mnemonic "STW", an empty
predicate and a cleared co-issued flag, so the output instruction
multiset differs from the input's. -/
theorem reorder_multiset_cex :
    ((translateEPWithDeferredStores packetStoreSTB).instructions :
        Multiset Instruction) ≠
      (packetStoreSTB.instructions : Multiset Instruction) := by decide

/-- C4 (amended): the reorder returns exactly the non-Store instructions
in their original relative order followed by, for each Store in original
relative order, a store rebuilt from its deferred record — type STORE,
mnemonic forced to "STW", unit/operands/line preserved, predicate
cleared, delay slots zeroed, co-issued flag cleared.  Cycle cost and
packet number are unchanged, and the spec's example packet
[Store(X), Load(Y, co-issued)] reorders to the Load followed by the
rebuilt Store. -/
theorem reorder_characterization (ep : ExecutePacket) :
    (translateEPWithDeferredStores ep).instructions =
      ep.instructions.filter (fun insn => !decide (insn.type = InsnType.STORE))
        ++ (ep.instructions.filter
              (fun insn => decide (insn.type = InsnType.STORE))).map
            (fun insn => storeFromDeferred (toDeferredStore insn)) ∧
    (translateEPWithDeferredStores ep).cycles = ep.cycles ∧
    (translateEPWithDeferredStores ep).ep_num = ep.ep_num ∧
    (translateEPWithDeferredStores specExamplePacket).instructions =
      [loadY, storeFromDeferred (toDeferredStore storeX)] := by
  refine ⟨?_, rfl, rfl, by decide⟩
  unfold translateEPWithDeferredStores
  rw [deferPass_eq]
  simp [List.map_map]

/-- C9: the reorder is idempotent — applying the deferred-store pass twice
gives the same packet as applying it once, for every execute packet. -/
theorem reorder_idempotent (ep : ExecutePacket) :
    translateEPWithDeferredStores (translateEPWithDeferredStores ep) =
      translateEPWithDeferredStores ep := by
  have h1 : ∀ l : List Instruction,
      (l.filter (fun insn => !decide (insn.type = InsnType.STORE))).filter
        (fun insn => !decide (insn.type = InsnType.STORE)) =
        l.filter (fun insn => !decide (insn.type = InsnType.STORE)) := by
    intro l
    apply List.filter_eq_self.mpr
    intro a ha
    exact (List.mem_filter.mp ha).2
  have h2 : ∀ l : List DeferredStore,
      (l.map storeFromDeferred).filter
        (fun insn => !decide (insn.type = InsnType.STORE)) = [] := by
    intro l
    apply List.filter_eq_nil_iff.mpr
    intro a ha
    obtain ⟨ds, hds, hval⟩ := List.mem_map.mp ha
    rw [← hval]
    simp [storeFromDeferred]
  have h3 : ∀ l : List Instruction,
      (l.filter (fun insn => !decide (insn.type = InsnType.STORE))).filter
        (fun insn => decide (insn.type = InsnType.STORE)) = [] := by
    intro l
    apply List.filter_eq_nil_iff.mpr
    intro a ha
    have hmem := (List.mem_filter.mp ha).2
    simp only [Bool.not_eq_true'] at hmem
    simp [hmem]
  have h4 : ∀ l : List DeferredStore,
      (l.map storeFromDeferred).filter
        (fun insn => decide (insn.type = InsnType.STORE)) =
        l.map storeFromDeferred := by
    intro l
    apply List.filter_eq_self.mpr
    intro a ha
    obtain ⟨ds, hds, hval⟩ := List.mem_map.mp ha
    rw [← hval]
    rfl
  unfold translateEPWithDeferredStores
  simp only [deferPass_eq]
  congr 1
  rw [List.filter_append, List.filter_append, h1, h2, h3, h4,
    List.append_nil, List.nil_append, List.map_map, List.map_map]
  rfl

/-- C5: the nested scenario with ILC = 7, RILC = 7, A1 = 3.  The first
call logs exactly one prolog translation and dispatch, one kernel
translation and six kernel dispatches, and leaves ILC reloaded to 7 and
A1 decremented to 2 in state 2 (Overlap).  Over the whole driver run the
overlap TB (id 2) is translated exactly once and dispatched once in each
of the remaining two outer iterations, the prolog and kernel TBs are
translated exactly once, exactly one block carries the overlap label, and
the run ends after the third call in the terminal state 0 with A1 = 0 —
matching the three-call driver loop. -/
theorem nested_scenario :
    nestedS1.events = nestedCallOneEvents ∧
    nestedS1.ILC = 7 ∧ nestedS1.RILC = 7 ∧ nestedS1.A1 = 2 ∧
    nestedS1.st = 2 ∧
    nestedS2.st = 2 ∧ nestedS2.A1 = 1 ∧
    countTranslations "NESTED_STATE_2" nestedS2.events = 1 ∧
    countDispatches 2 nestedS2.events = 1 ∧
    countTranslations "NESTED_STATE_2" nestedS3.events = 1 ∧
    countTranslations "NESTED_STATE_1" nestedS3.events = 1 ∧
    countTranslations "NESTED_STATE_0" nestedS3.events = 1 ∧
    countDispatches 2 nestedS3.events = 2 ∧
    (nestedS3.blocks.filter
      (fun tb => decide (tb.start_label = "NESTED_STATE_2"))).length = 1 ∧
    nestedS3.st = 0 ∧ nestedS3.A1 = 0 ∧
    runNestedDriver guestNested 6 3 nestedInit = nestedS3 := by
  decide

/-- C6 (counterexample): the claim asserts an operation whose effect
would make a counter negative fails with a CounterUnderflow error instead
of performing the decrement.  The code has no error path: calling the
nested machine on the all-zero-counter state performs the decrement and
returns normally with A1 = -1, a negative counter. -/
theorem counter_underflow_cex :
    (nestedStep guestNested 6 zeroCounterState).A1 = -1 ∧
    ¬ (0 ≤ (nestedStep guestNested 6 zeroCounterState).A1) := by
  decide

/-- C6 (amended): the phase machines perform no underflow check and no
CounterUnderflow error exists; invoked on a zero-counter state they drive
a counter negative (see the counterexample).  In the program's own
scenarios, however — the single loop started with ILC = 8 and the nested
loop started with ILC = 7, RILC = 7, A1 = 3 and driven to completion —
ILC, RILC and A1 are non-negative in every state between machine
invocations. -/
theorem counters_nonneg_in_scenarios :
    (0 ≤ loopInit.ILC ∧ 0 ≤ loopS1.ILC) ∧
    (0 ≤ nestedInit.ILC ∧ 0 ≤ nestedInit.RILC ∧ 0 ≤ nestedInit.A1) ∧
    (0 ≤ nestedS1.ILC ∧ 0 ≤ nestedS1.RILC ∧ 0 ≤ nestedS1.A1) ∧
    (0 ≤ nestedS2.ILC ∧ 0 ≤ nestedS2.RILC ∧ 0 ≤ nestedS2.A1) ∧
    (0 ≤ nestedS3.ILC ∧ 0 ≤ nestedS3.RILC ∧ 0 ≤ nestedS3.A1) := by
  decide

/-- C7 (counterexample): the claim excludes only SPMASK-only packets from
the kernel scan.  On a one-packet stream whose packet holds an SPMASK
marker co-issued with a Load — not SPMASK-only, and holding no Branch —
the claim's characterization keeps the packet, but the code's scan skips
every packet containing an SPMASK and returns no packets. -/
theorem kernel_scan_cex :
    (translateNestedInner streamSpmaskLoad 0 0).packets = [] ∧
    claimInnerScan streamSpmaskLoad = [packetSpmaskLoad] ∧
    (translateNestedInner streamSpmaskLoad 0 0).packets ≠
      claimInnerScan (streamSpmaskLoad.drop (Int.toNat 0)) := by
  decide

/-- C7 (amended): for every stream and non-negative kernel-start index,
the nested Kernel translation holds exactly the packets from the
kernel-start index up to but excluding the first packet containing a
Branch, with every packet containing an SPMASK marker (whether or not
other instructions accompany it) excluded from the scan; on the program's
nested stream, whose kernel-start index 6 is the index after the SPLOOP
marker, this yields packets EP7-EP10. -/
theorem kernel_scan (guest : List ExecutePacket) (sploopStart : Int)
    (tb_id : Int) (h : 0 ≤ sploopStart) :
    (translateNestedInner guest sploopStart tb_id).packets =
      ((guest.drop sploopStart.toNat).takeWhile
        (fun ep => !hasBranchEP ep)).filter (fun ep => !hasSpmaskEP ep) ∧
    (translateNestedInner guestNested 6 tb_id).packets =
      [nestedEP7, nestedEP8, nestedEP9, nestedEP10] := by
  constructor
  · show (if sploopStart < 0 then []
      else innerScan (guest.drop sploopStart.toNat)) = _
    rw [if_neg (by omega)]
    exact innerScan_eq _
  · show (if (6 : Int) < 0 then []
      else innerScan (guestNested.drop (Int.toNat 6))) = _
    rw [if_neg (by omega)]
    decide

/-- C7 (witness): the kernel-scan theorem applied at the program's nested
stream with kernel-start index 6. -/
theorem kernel_scan_witness :
    (0 : Int) ≤ 6 ∧
    ((translateNestedInner guestNested 6 0).packets =
      ((guestNested.drop (Int.toNat 6)).takeWhile
        (fun ep => !hasBranchEP ep)).filter (fun ep => !hasSpmaskEP ep) ∧
     (translateNestedInner guestNested 6 0).packets =
      [nestedEP7, nestedEP8, nestedEP9, nestedEP10]) :=
  ⟨by decide, kernel_scan guestNested 6 0 (by decide)⟩

/-- C8 (counterexample): the claim asserts that after a build and its
budget query no obligation recorded during the build remains to influence
a later build.  Building the one-packet stream whose Branch has 3 delay
slots and querying leaves the delay-3 obligation in the tracker (the
query only discards obligations with remaining delay <= 0, and delays are
never decremented); a subsequent unrelated build whose only Branch has 7
delay slots then queries to 3 — the stale obligation from the first
build, not the 7 of the second build's own obligation. -/
theorem tracker_locality_cex :
    (⟨3, "T1", 1⟩ : SavedContext) ∈
      (getCyclesFromPrecedingTB
        (translateWithConstraint streamBr3 0 0 1000 []).ctxs).2 ∧
    (getCyclesFromPrecedingTB
      (translateWithConstraint streamBr7 1 0 3
        (getCyclesFromPrecedingTB
          (translateWithConstraint streamBr3 0 0 1000 []).ctxs).2).ctxs).1
      = 3 ∧
    (3 : Int) ≠ 7 := by
  decide

/-- C8 (amended): the budget query discards only obligations whose
remaining delay is non-positive; every obligation with positive remaining
delay survives the query and bounds its result from above, so obligations
recorded during one build persist into all later builds and queries. -/
theorem tracker_positive_persist (ctxs : List SavedContext)
    (c : SavedContext) (h1 : c ∈ ctxs) (h2 : 0 < c.remaining_delay) :
    c ∈ (getCyclesFromPrecedingTB ctxs).2 ∧
    (getCyclesFromPrecedingTB ctxs).1 ≤ c.remaining_delay := by
  match ctxs, h1 with
  | c0 :: rest, h1 =>
    unfold getCyclesFromPrecedingTB
    constructor
    · apply List.mem_filter.mpr
      refine ⟨h1, ?_⟩
      simp only [Bool.not_eq_true', decide_eq_false_iff_not]
      omega
    · rcases List.mem_cons.mp h1 with h | h
      · subst h
        exact foldlMinDelay_le_init rest c.remaining_delay
      · exact foldlMinDelay_le_mem rest c0.remaining_delay c h

/-- C8 (witness): the persistence theorem applied to a tracker holding a
single obligation with remaining delay 5. -/
theorem tracker_positive_persist_witness :
    ctxW ∈ [ctxW] ∧ 0 < ctxW.remaining_delay ∧
    (ctxW ∈ (getCyclesFromPrecedingTB [ctxW]).2 ∧
     (getCyclesFromPrecedingTB [ctxW]).1 ≤ ctxW.remaining_delay) :=
  ⟨by decide, by decide,
   tracker_positive_persist [ctxW] ctxW (by decide) (by decide)⟩

/-- C10 (counterexample): the claim says a branch with 1000 or more delay
slots is indistinguishable from the absence of any branch constraint.
Its obligation is still recorded: after building the one-packet stream
holding a delay-1500 Branch the budget query returns 1500, while after
building the branch-free NOP packet it returns 1000 — observably
different. -/
theorem sentinel_cex :
    (getCyclesFromPrecedingTB
      (translateWithConstraint [packetBr1500] 0 0 1000 []).ctxs).1 = 1500 ∧
    (getCyclesFromPrecedingTB
      (translateWithConstraint [packetNop] 0 0 1000 []).ctxs).1 = 1000 ∧
    (1500 : Int) ≠ 1000 := by
  decide

/-- C10 (amended): 1000 is the concrete "unconstrained" value — the
budget query returns exactly 1000 on an empty tracker, the default
top-level build budget is the same constant 1000, and for any packet
whose Branch delays are all at least 1000 the per-packet minimum-delay
scan stays at the 1000 sentinel, so the budget update never clamps (the
build is unaffected by such a branch); the branch remains distinguishable
only through the recorded obligation (see the counterexample). -/
theorem unconstrained_sentinel (ep : ExecutePacket) (c : Int)
    (h : ∀ insn ∈ ep.instructions,
      insn.type = InsnType.BRANCH → 1000 ≤ insn.delay_slots) :
    minBranchDelay ep = 1000 ∧
    stepCycles ep c = c - ep.cycles ∧
    (getCyclesFromPrecedingTB []).1 = 1000 ∧
    initial_cycles = 1000 := by
  have hmin : minBranchDelay ep = 1000 := by
    unfold minBranchDelay
    exact foldl_minBranch_const ep.instructions 1000 h
  refine ⟨hmin, ?_, rfl, rfl⟩
  unfold stepCycles
  simp [hmin]

/-- C10 (witness): the sentinel theorem applied to the packet holding the
delay-1500 Branch, with budget 42. -/
theorem unconstrained_sentinel_witness :
    (∀ insn ∈ packetBr1500.instructions,
      insn.type = InsnType.BRANCH → 1000 ≤ insn.delay_slots) ∧
    (minBranchDelay packetBr1500 = 1000 ∧
     stepCycles packetBr1500 42 = 42 - packetBr1500.cycles ∧
     (getCyclesFromPrecedingTB []).1 = 1000 ∧
     initial_cycles = 1000) :=
  ⟨by decide, unconstrained_sentinel packetBr1500 42 (by decide)⟩

end VLIW
